import Mathlib

/-!
Verification of the code_planning_agent repository.

The Python sources under src/ are shallowly embedded: every external
effect (LLM completions, Tavily search and extraction, the filesystem)
is represented by an explicit outcome value passed to the embedded
function, and Python strings are modelled as lists of characters
(`Str`), which matches Python's code-point indexing and slicing.
Python dictionaries whose keys may be absent are modelled with
`Option` fields; `dict.get(k, d)` becomes `Option.getD`.
-/

namespace CodePlanning

/-- Python strings are sequences of code points; `List Char` gives the
same length, slicing and concatenation behaviour. -/
abbrev Str := List Char

/-- The code points of a Lean string literal. -/
def str (s : String) : Str := s.data

/-- Python `needle in hay` on strings: contiguous substring test. -/
def containsSub (needle : Str) : Str → Bool
  | [] => needle.isEmpty
  | c :: t => needle.isPrefixOf (c :: t) || containsSub needle t

/-- Python `s.strip()`: remove leading and trailing whitespace. -/
def pyStrip (s : Str) : Str :=
  ((s.dropWhile Char.isWhitespace).reverse.dropWhile Char.isWhitespace).reverse

/-! ## IdeaEvaluator: `evaluate_idea_clarity` (src/src/api.py lines 41 to 88) -/

/-- Outcome of the LLM call inside `evaluate_idea_clarity`:
the client may be unavailable (no API key), the call or JSON parsing may
raise, or a parsed JSON object arrives whose keys may each be absent. -/
inductive ClarityOutcome where
  | unavailable : ClarityOutcome
  | exception : ClarityOutcome
  | parsed (rating : Option Int) (reflection : Option Str)
      (missing_elements : Option (List Str)) (advice : Option Str) : ClarityOutcome
deriving DecidableEq

/-- The fixed reflection returned when no LLM client is available. -/
def busyReflection : Str := str "Our services are currently busy. I\x27ll proceed with your idea as is."

/-- The fixed reflection returned when the API call raises. -/
def apologyReflection : Str :=
  str "I couldn\x27t fully analyze your idea. Could you provide more details about your project, such as its purpose, target platform, and key features?"

/-- Embedding of `evaluate_idea_clarity` from src/src/api.py.  The
`idea_text` only feeds the prompt; the branch taken is determined by
the service outcome. -/
def evaluate_idea_clarity (idea_text : Str) (outcome : ClarityOutcome) : Int × Str :=
  match outcome with
  | .unavailable => (7, busyReflection)
  | .exception => (5, apologyReflection)
  | .parsed rating0 reflection0 missing0 advice0 =>
    let rating := rating0.getD 5
    let reflection := reflection0.getD (str "Could you provide more details about your project idea?")
    let missing_elements := missing0.getD []
    let advice := advice0.getD (str "Consider adding more specific details about your project.")
    let enhanced_reflection :=
      if missing_elements ≠ [] then
        reflection ++ str "\n\nYour idea is missing: " ++
          List.intercalate (str ", ") missing_elements ++ str "."
      else reflection
    let enhanced_reflection :=
      if advice ≠ [] then enhanced_reflection ++ str "\n\n" ++ advice
      else enhanced_reflection
    (rating, enhanced_reflection)

/-! ## IdeaEvaluator: `process_project_summary` (src/src/api.py lines 90 to 141) -/

/-- A normalized project summary: the four canonical fields, each a
string (possibly empty). -/
structure ProjectSummary where
  project_purpose : Str
  platform : Str
  tech_stack : Str
  key_features : Str
deriving DecidableEq

/-- Outcome of the LLM call inside `process_project_summary`; in the
`parsed` case each spaced key of the JSON object may be absent. -/
inductive SummaryOutcome where
  | unavailable : SummaryOutcome
  | exception (msg : Str) : SummaryOutcome
  | parsed (projectPurpose platform techStack keyFeatures : Option Str) : SummaryOutcome
deriving DecidableEq

/-- The dictionary returned by `process_project_summary`: either a
mapping with the single key `error`, or a mapping holding all four
canonical keys. -/
inductive SummaryResult where
  | error (msg : Str) : SummaryResult
  | ok (s : ProjectSummary) : SummaryResult
deriving DecidableEq

/-- Whether the returned mapping carries the four canonical keys. -/
def SummaryResult.hasCanonicalKeys : SummaryResult → Bool
  | .error _ => false
  | .ok _ => true

/-- Embedding of `process_project_summary` from src/src/api.py: on
success the spaced keys are transferred to the canonical keys with
empty-string fallbacks; on unavailability or exception an error
mapping is returned instead. -/
def process_project_summary (prompt : Str) (outcome : SummaryOutcome) : SummaryResult :=
  match outcome with
  | .unavailable => .error (str "Our services are currently busy. Please try again later.")
  | .exception msg =>
    .error (str "Processing error: " ++ msg ++ str ". Please try again later.")
  | .parsed p pl t f =>
    .ok ⟨p.getD [], pl.getD [], t.getD [], f.getD []⟩

/-! ## RepositorySearch: query assembly (src/src/handlers.py lines 140 to 164)
and `search_github_projects` (src/src/api.py lines 143 to 208) -/

/-- A candidate repository as stored in `search_results`: the dict
with keys `title`, `url`, `description` built by
`search_github_projects`. -/
structure Project where
  title : Str
  url : Str
  description : Str
deriving DecidableEq

/-- Reading the summary fields the way `handle_github_search` does:
reading each key with an empty-string default from whatever dict `process_project_summary`
returned, so an error mapping yields the empty string for every
canonical key. -/
def SummaryResult.purposeField : SummaryResult → Str
  | .error _ => []
  | .ok s => s.project_purpose

/-- The `platform` field of the summary dict, empty on an error mapping. -/
def SummaryResult.platformField : SummaryResult → Str
  | .error _ => []
  | .ok s => s.platform

/-- The `tech_stack` field of the summary dict, empty on an error mapping. -/
def SummaryResult.techStackField : SummaryResult → Str
  | .error _ => []
  | .ok s => s.tech_stack

/-- Embedding of the query assembly in `handle_github_search`
(src/src/handlers.py): start from the original idea and append the
purpose, platform and tech-stack fields only while the cumulative
length stays under the 400, 450 and 500 checkpoints.  `summary` is
`none` when `st.session_state.project_summary` is `None`. -/
def assemble_search_query (original_idea : Str) (summary : Option SummaryResult) : Str :=
  match summary with
  | none => original_idea
  | some s =>
    let project_purpose := s.purposeField
    let platform := s.platformField
    let tech_stack := s.techStackField
    let q := original_idea
    let q :=
      if project_purpose ≠ [] ∧ project_purpose ≠ original_idea ∧
          q.length + project_purpose.length < 400 then
        q ++ str " " ++ project_purpose
      else q
    let q :=
      if platform ≠ [] ∧ q.length + platform.length < 450 then
        q ++ str " for " ++ platform
      else q
    let q :=
      if tech_stack ≠ [] ∧ q.length + tech_stack.length < 500 then
        let tech_terms := (tech_stack.splitOn ',').take 3
        q ++ str " using " ++ List.intercalate (str ", ") tech_terms
      else q
    q

/-- The truncation inside `search_github_projects`:
`query[:500]` when the query exceeds 500 characters. -/
def truncateQuery (query : Str) : Str :=
  if 500 < query.length then query.take 500 else query

/-- The query string actually handed to the Tavily client on the first
attempt: the truncated query with the fixed suffix appended. -/
def submittedQuery (query : Str) : Str :=
  truncateQuery query ++ str " GitHub repository"

/-- One entry of the Tavily `results` list; each key may be absent. -/
structure TavilyResult where
  title : Option Str
  url : Option Str
  content : Option Str
deriving DecidableEq

/-- Outcome of the Tavily interaction inside `search_github_projects`:
no API key, both search attempts raising, or a response dict whose
`results` key may be absent. -/
inductive SearchOutcome where
  | unavailable : SearchOutcome
  | failure (msg : Str) : SearchOutcome
  | response (results : Option (List TavilyResult)) : SearchOutcome
deriving DecidableEq

/-- The value returned by `search_github_projects`: an error dict or a
list of candidate projects. -/
inductive SearchResult where
  | error (msg : Str) : SearchResult
  | projects (l : List Project) : SearchResult
deriving DecidableEq

/-- The description truncation applied to each Tavily result:
content longer than 200 characters becomes its first 200 characters
with an ellipsis appended. -/
def truncDescription (content : Str) : Str :=
  if 200 < content.length then content.take 200 ++ str "..." else content

/-- Embedding of the result processing in `search_github_projects`
(src/src/api.py): keep only results whose URL contains the substring
github.com, build the candidate dicts with defaults for missing keys,
report an error when nothing survives, and cap the list at 5. -/
def search_github_projects (query : Str) (outcome : SearchOutcome) : SearchResult :=
  match outcome with
  | .unavailable =>
    .error (str "Search service is currently unavailable. Please try again later.")
  | .failure msg =>
    .error (str "Search failed: " ++ msg ++ str ". Please try again with a simpler query.")
  | .response results0 =>
    let github_projects : List Project :=
      match results0 with
      | none => []
      | some results =>
        results.filterMap fun r =>
          if containsSub (str "github.com") (r.url.getD []) then
            some ⟨r.title.getD (str "Untitled"), r.url.getD [],
                  truncDescription (r.content.getD [])⟩
          else none
    if github_projects = [] then
      .error (str "No relevant GitHub projects found. Try adjusting your search terms.")
    else
      .projects (github_projects.take 5)

/-! ## RepositoryInspector: `extract_github_content` (src/src/api.py lines 210 to 325) -/

/-- The repository-content dict built by `extract_github_content`. -/
structure RepoContent where
  raw_content : Str
  extracted_content : Bool
  stars : Nat
  forks : Nat
  languages : List Str
  readme : Str
  files : List Str
deriving DecidableEq

/-- The outcome of each best-effort regex search over the raw page
content.  The Python regular-expression engine is external to the
repository, so each `re.search` / `re.findall` outcome is an input:
`none` models a pattern that matched nothing, `some` carries the
captured data (the digits of the stars and forks patterns as a number,
the language and percentage pairs of the Languages section, the raw
README capture group, the raw file names of the file table). -/
structure RegexMatches where
  stars : Option Nat
  forks : Option Nat
  languages_section : Option (List (Str × Str))
  readme : Option Str
  files_section : Option (List Str)
deriving DecidableEq

/-- Outcome of the Tavily extract call in `extract_github_content`:
missing API key, the HTTP request raising or returning a bad status,
the response carrying no results, or raw content plus the outcomes of
the five extraction patterns. -/
inductive ExtractOutcome where
  | noApiKey : ExtractOutcome
  | requestFailed (msg : Str) : ExtractOutcome
  | noResults : ExtractOutcome
  | content (raw : Str) (m : RegexMatches) : ExtractOutcome
deriving DecidableEq

/-- Embedding of `extract_github_content` from src/src/api.py: every
failure path returns a fully defaulted dict with
`extracted_content = False`, and in the content path each extraction
step overwrites its default only when its pattern matched. -/
def extract_github_content (github_url : Str) (outcome : ExtractOutcome) : RepoContent :=
  match outcome with
  | .noApiKey =>
    ⟨str "No content available for " ++ github_url, false, 0, 0, [],
     str "No README available", []⟩
  | .noResults =>
    ⟨str "No content available for " ++ github_url, false, 0, 0, [],
     str "No README available", []⟩
  | .requestFailed msg =>
    ⟨str "Error extracting content: " ++ msg, false, 0, 0, [],
     str "No README available", []⟩
  | .content raw m =>
    { raw_content := raw
      extracted_content := true
      stars := match m.stars with | some n => n | none => 0
      forks := match m.forks with | some n => n | none => 0
      languages := match m.languages_section with
        | some pairs => pairs.map Prod.fst
        | none => []
      readme := match m.readme with
        | some t => pyStrip t
        | none => str "No README detected"
      files := match m.files_section with
        | some names => (names.map pyStrip).filter (· ≠ [])
        | none => [] }

/-! ## RepositoryRanker: `select_best_project` (src/src/api.py lines 430 to 542) -/

/-- An evaluation dict as built by `evaluate_repository` and consumed
by `select_best_project` and `evaluate_and_plan_projects`.  The
`is_best_match` and `best_match_reason` keys are absent until the
marking step runs; `is_best_match` is always read through
`.get(k, False)`, so the absent key and a stored `False` coincide. -/
structure Evaluation where
  project : Project
  pros : List Str
  cons : List Str
  summary : Str
  suitability_score : Int
  is_best_match : Bool
  best_match_reason : Option Str
deriving DecidableEq

/-- The dict returned by `select_best_project`: a project decorated
with a `reason` key; the sentinel and error results carry no reason. -/
structure SelectedProject where
  title : Str
  url : Str
  description : Str
  reason : Option Str
deriving DecidableEq

/-- Forgetting the reason decoration. -/
def SelectedProject.projectOf (s : SelectedProject) : Project :=
  ⟨s.title, s.url, s.description⟩

/-- Outcome of the selection-service call in `select_best_project`:
client unavailable, the call raising, or a parsed JSON response whose
`best_project_index` is an integer (`some i`; a missing key defaults
to 1 before parsing) or unparsable (`none`, the `int(...)` conversion
raising), together with its optional `reason` string. -/
inductive SelectionOutcome where
  | unavailable : SelectionOutcome
  | exception : SelectionOutcome
  | response (index : Option Int) (reason : Option Str) : SelectionOutcome
deriving DecidableEq

/-- Python `max(evaluations, key=score)` keeps the current maximum and
replaces it only on a strictly greater score, so it returns the first
maximal element. -/
def pyMaxAux (best : Evaluation) : List Evaluation → Evaluation
  | [] => best
  | x :: xs =>
    if best.suitability_score < x.suitability_score then pyMaxAux x xs
    else pyMaxAux best xs

/-- Stable insertion into a list sorted by descending score: the new
element goes after every strictly greater element and before the first
element whose score does not exceed it. -/
def insertDesc (e : Evaluation) : List Evaluation → List Evaluation
  | [] => [e]
  | x :: xs =>
    if e.suitability_score < x.suitability_score then x :: insertDesc e xs
    else e :: x :: xs

/-- Stable sort by descending `suitability_score`, the behaviour of
Python `sorted(key=score, reverse=True)` and of
`evaluations.sort(key=score, reverse=True)`: descending scores with
ties keeping their original relative order. -/
def sortByScoreDesc : List Evaluation → List Evaluation
  | [] => []
  | x :: xs => insertDesc x (sortByScoreDesc xs)

/-- The fixed reason attached by the score fallbacks. -/
def scoreFallbackReason : Str :=
  str "Selected as the best match based on suitability score."

/-- Embedding of `select_best_project` from src/src/api.py.  The
`project_summary` argument of the source only feeds the prompt text,
so it does not appear here; the service behaviour is `outcome`. -/
def select_best_project (evaluations : List Evaluation)
    (outcome : SelectionOutcome) : SelectedProject :=
  match evaluations with
  | [] => ⟨str "No valid project found", [], str "No evaluations provided.", none⟩
  | [e] =>
    ⟨e.project.title, e.project.url, e.project.description,
     some (str "This is the only project found.")⟩
  | e1 :: e2 :: rest =>
    match outcome with
    | .unavailable =>
      let best := (pyMaxAux e1 (e2 :: rest)).project
      ⟨best.title, best.url, best.description, some scoreFallbackReason⟩
    | .exception =>
      match sortByScoreDesc (e1 :: e2 :: rest) with
      | b :: _ =>
        ⟨b.project.title, b.project.url, b.project.description,
         some scoreFallbackReason⟩
      | [] =>
        ⟨str "Could not select project", [],
         str "An error occurred during project selection.", none⟩
    | .response index reason =>
      let evals := e1 :: e2 :: rest
      let r := reason.getD
        (str "This project best matches your requirements based on our evaluation.")
      match index with
      | none =>
        let best := (pyMaxAux e1 (e2 :: rest)).project
        ⟨best.title, best.url, best.description, some r⟩
      | some i =>
        let best_index := i - 1
        if h : best_index < 0 ∨ (evals.length : Int) ≤ best_index then
          let best := (pyMaxAux e1 (e2 :: rest)).project
          ⟨best.title, best.url, best.description, some r⟩
        else
          let best := (evals.get ⟨best_index.toNat, by
            simp only [not_or, not_lt, Int.not_le] at h
            omega⟩).project
          ⟨best.title, best.url, best.description, some r⟩

/-! ## The evaluation stage of `evaluate_and_plan_projects`
(src/src/handlers.py lines 202 to 342) -/

/-- The marking applied to each evaluation after `select_best_project`
returns: evaluations whose project URL equals the selected URL are
flagged as the best match, given the selection reason and a decorated
title; all others are flagged `False`. -/
def markEval (best : SelectedProject) (e : Evaluation) : Evaluation :=
  if e.project.url = best.url then
    { e with
      is_best_match := true
      best_match_reason := some (best.reason.getD [])
      project := { e.project with title := str "✅ BEST MATCH: " ++ e.project.title } }
  else
    { e with is_best_match := false }

/-- The evaluation list stored in the session after the `start` step:
sorted by descending score, then marked against the selected project. -/
def evaluationsAfterMarking (evaluations : List Evaluation)
    (best : SelectedProject) : List Evaluation :=
  (sortByScoreDesc evaluations).map (markEval best)

/-- The `selected_project` computed at src/src/handlers.py lines 321
to 329: the first evaluation flagged as best match, or the head of the
score-sorted list when none is flagged; `none` only on an empty list,
where the source would raise an IndexError. -/
def selectedFromMarked (marked : List Evaluation) : Option Project :=
  match marked.find? (fun e => e.is_best_match) with
  | some e => some e.project
  | none =>
    match marked with
    | [] => none
    | e :: _ => some e.project

/-! ## ConversationController: the clarification handlers
(src/src/handlers.py lines 36 to 131) -/

/-- The slice of the Streamlit session state that the clarification
handlers read and write.  Chat rendering fields (`messages`,
spinner widgets) are presentation only and are not modelled. -/
structure Session where
  original_idea : Str
  idea_rating : Int
  idea_reflection : Str
  project_summary : Option SummaryResult
  awaiting_clarification : Bool
  auto_search : Bool
deriving DecidableEq

/-- Embedding of `handle_initial_message` from src/src/handlers.py:
store the idea, rate it, always store the summary, then either enter
the awaiting-clarification state (rating below 8) or clear it and arm
the automatic search transition. -/
def handle_initial_message (s : Session) (prompt : Str)
    (cOut : ClarityOutcome) (sOut : SummaryOutcome) : Session :=
  let rr := evaluate_idea_clarity prompt cOut
  let initial_summary := process_project_summary prompt sOut
  let s := { s with
    original_idea := prompt
    idea_rating := rr.1
    idea_reflection := rr.2
    project_summary := some initial_summary }
  if rr.1 < 8 then
    { s with awaiting_clarification := true }
  else
    { s with awaiting_clarification := false, auto_search := true }

/-- Embedding of `handle_clarification` from src/src/handlers.py:
append the new text to the original idea, re-rate the combined text,
and either clear the awaiting flag and arm the automatic search
(rating at least 8) or keep awaiting while still updating the
summary.  The reflection field is not updated by this handler. -/
def handle_clarification (s : Session) (prompt : Str)
    (cOut : ClarityOutcome) (sOut : SummaryOutcome) : Session :=
  let combined_idea := s.original_idea ++ str " " ++ prompt
  let rr := evaluate_idea_clarity combined_idea cOut
  let updated_summary := process_project_summary combined_idea sOut
  let s := { s with original_idea := combined_idea, idea_rating := rr.1 }
  if 8 ≤ rr.1 then
    { s with
      awaiting_clarification := false
      project_summary := some updated_summary
      auto_search := true }
  else
    { s with project_summary := some updated_summary }

/-! ## PlanGenerator: `create_fallback_implementation_doc`
(src/src/api.py lines 726 to 810) -/

/-- One implementation step of an enhancement plan; every key may be
absent. -/
structure PlanStep where
  title : Option Str
  description : Option Str
  tasks : Option Str
  expected_outcome : Option Str
  resources : Option Str
deriving DecidableEq

/-- An enhancement plan dict; `implementation_steps` may be absent
(`none`) or present, and a present empty list is falsy in the source
condition. -/
structure EnhancementPlan where
  enhancement_description : Option Str
  implementation_steps : Option (List PlanStep)
deriving DecidableEq

/-- Reading a canonical summary key with a chosen default, the way the
fallback document does on a dict that may be the error mapping (whose
canonical keys are absent, so the default fires). -/
def SummaryResult.purposeOr (d : Str) : SummaryResult → Str
  | .error _ => d
  | .ok s => s.project_purpose

/-- `platform` with default, absent on an error mapping. -/
def SummaryResult.platformOr (d : Str) : SummaryResult → Str
  | .error _ => d
  | .ok s => s.platform

/-- `tech_stack` with default, absent on an error mapping. -/
def SummaryResult.techStackOr (d : Str) : SummaryResult → Str
  | .error _ => d
  | .ok s => s.tech_stack

/-- `key_features` with default, absent on an error mapping. -/
def SummaryResult.keyFeaturesOr (d : Str) : SummaryResult → Str
  | .error _ => d
  | .ok s => s.key_features

/-- The rendered text of one implementation step (`i` is the
zero-based position). -/
def stepText (i : Nat) (step : PlanStep) : Str :=
  let n := str (toString (i + 1))
  str "## Step " ++ n ++ str ": " ++ step.title.getD (str "Step " ++ n) ++ str "\n\n" ++
  str "### Description\n" ++ step.description.getD (str "No description provided") ++ str "\n\n" ++
  str "### Tasks\n" ++ step.tasks.getD (str "No tasks specified") ++ str "\n\n" ++
  str "### Expected Outcome\n" ++ step.expected_outcome.getD (str "No expected outcome specified") ++ str "\n\n" ++
  str "### Resources\n" ++ step.resources.getD (str "No resources specified") ++ str "\n\n"

/-- The fixed three-step skeleton used when no steps are available. -/
def skeletonStepsText : Str :=
  str "## Step 1: Project Setup\n### Description\nSet up the development environment and clone the repository.\n\n### Tasks\n- Clone the repository\n- Install dependencies\n- Configure development environment\n\n## Step 2: Implementation\n### Description\nImplement the required features.\n\n### Tasks\n- Analyze requirements\n- Implement core features\n- Test implementation\n\n## Step 3: Deployment\n### Description\nDeploy and finalize the project.\n\n### Tasks\n- Prepare for deployment\n- Deploy application\n- Document the implementation\n"

/-- The `implementation_steps_text` accumulator: the concatenation of
the rendered steps when the list is present and non-empty, the fixed
skeleton otherwise. -/
def implementationStepsText (enhancement_plan : EnhancementPlan) : Str :=
  match enhancement_plan.implementation_steps with
  | some (s0 :: rest) =>
    (((s0 :: rest).enum).map (fun p => stepText p.1 p.2)).flatten
  | _ => skeletonStepsText

/-- Everything of the fallback document before the steps text. -/
def fallbackDocHead (project_summary : SummaryResult)
    (selected_project : SelectedProject)
    (enhancement_plan : EnhancementPlan) : Str :=
  str "# Implementation Plan for " ++ project_summary.purposeOr (str "Mini-Project") ++
  str "\n\n## 1. Project Overview\n- Purpose: " ++ project_summary.purposeOr (str "Not specified") ++
  str "\n- Platform: " ++ project_summary.platformOr (str "Not specified") ++
  str "\n- Tech Stack: " ++ project_summary.techStackOr (str "Not specified") ++
  str "\n- Key Features: " ++ project_summary.keyFeaturesOr (str "Not specified") ++
  str "\n\n## 2. Base Project\n- Title: " ++ selected_project.title ++
  str "\n- URL: " ++ selected_project.url ++
  str "\n- Description: " ++ selected_project.description ++
  str "\n\n## 3. Enhancement Strategy\n" ++
  (enhancement_plan.enhancement_description.getD
    (str "Adapt the project to meet your requirements.")) ++
  str "\n\n## 4. Implementation Steps\n"

/-- Everything of the fallback document after the steps text. -/
def fallbackDocTail : Str :=
  str "\n\n## 5. Next Steps After Implementation\n1. Test the application thoroughly\n2. Document any changes from the original plan\n3. Consider improvements for future iterations\n"

/-- Embedding of `create_fallback_implementation_doc` from
src/src/api.py (the identical copy in src/src/utils.py is the same
function): a pure template assembled from the three inputs. -/
def create_fallback_implementation_doc (project_summary : SummaryResult)
    (selected_project : SelectedProject)
    (enhancement_plan : EnhancementPlan) : Str :=
  fallbackDocHead project_summary selected_project enhancement_plan ++
  implementationStepsText enhancement_plan ++
  fallbackDocTail

/-- Reference form of the first maximal element of `x :: xs`, used to
relate `pyMaxAux` and the head of the stable descending sort. -/
def hMax (x : Evaluation) : List Evaluation → Evaluation
  | [] => x
  | y :: ys =>
    if x.suitability_score < (hMax y ys).suitability_score then hMax y ys else x

/-- The failure situations of claim C2: selection service unavailable,
the LLM-backed path raising, an unparsable `best_project_index`, or a
1-based index outside the range 1 to count. -/
def selectionFails (count : Nat) : SelectionOutcome → Prop
  | .unavailable => True
  | .exception => True
  | .response none _ => True
  | .response (some i) _ => i - 1 < 0 ∨ (count : Int) ≤ i - 1

/-! ## Spec-side host reading for the search filter -/

/-- Drop everything up to and including the scheme separator of a URL. -/
def dropSchemeSep : Str → Str
  | [] => []
  | c :: t => if (str "://").isPrefixOf (c :: t) then t.drop 2 else dropSchemeSep t

/-- The host component of a URL: the text between the scheme separator
and the next slash. -/
def urlHostOf (url : Str) : Str := (dropSchemeSep url).takeWhile (· ≠ '/')

/-- Follows the spec's words, for comparison with the source's filter:
the URL belongs to the github.com host, i.e. its host component is
github.com or a subdomain of it.  The source instead tests whether the
URL merely contains github.com as a substring. -/
def urlHostIsGithub (url : Str) : Bool :=
  urlHostOf url == str "github.com" || (str ".github.com").isSuffixOf (urlHostOf url)

/-! # Theorems -/

/-- Claim C3, as stated, is false: when the LLM client is unavailable
`evaluate_idea_clarity` returns rating 7 with a busy message, not the
neutral default rating 5 with the apology reflection. -/
theorem C3_counterexample :
    (evaluate_idea_clarity (str "a chat app") ClarityOutcome.unavailable).1 = 7 ∧
    ¬ ((evaluate_idea_clarity (str "a chat app") ClarityOutcome.unavailable).1 = 5) := by
  constructor
  · rfl
  · decide

/-- Claim C3 (amended): `evaluate_idea_clarity` never raises past its
boundary; when the LLM client is unavailable it returns rating 7 with
the fixed busy message, and when the call raises or its response is
malformed it returns the neutral default rating 5 with the fixed
apology reflection. -/
theorem C3_clarity_fallbacks (idea_text : Str) :
    evaluate_idea_clarity idea_text ClarityOutcome.unavailable = (7, busyReflection) ∧
    evaluate_idea_clarity idea_text ClarityOutcome.exception = (5, apologyReflection) :=
  ⟨rfl, rfl⟩

/-- Claim C4, as stated, is false: when the LLM client is unavailable
`process_project_summary` returns a mapping with only an `error` key,
omitting all four canonical keys. -/
theorem C4_counterexample :
    SummaryResult.hasCanonicalKeys
      (process_project_summary (str "a chat app") SummaryOutcome.unavailable) = false := rfl

/-- Claim C4 (amended): on a successful service response
`process_project_summary` returns a mapping with all four canonical
keys, each bound to the service's string or the empty string when the
corresponding spaced key is missing; on service unavailability or an
exception it instead returns a mapping holding only an `error` key. -/
theorem C4_summary_normalization (prompt msg : Str) (p pl t f : Option Str) :
    process_project_summary prompt (SummaryOutcome.parsed p pl t f)
      = SummaryResult.ok ⟨p.getD [], pl.getD [], t.getD [], f.getD []⟩ ∧
    SummaryResult.hasCanonicalKeys
      (process_project_summary prompt SummaryOutcome.unavailable) = false ∧
    SummaryResult.hasCanonicalKeys
      (process_project_summary prompt (SummaryOutcome.exception msg)) = false :=
  ⟨rfl, rfl, rfl⟩

/-- Claim C8: `extract_github_content` never raises past its boundary;
on a missing API key, a failed request, or an empty provider result it
returns the fully defaulted RepoContent (extracted flag false, zero
stars and forks, empty languages and files, default readme), and in
the content path each best-effort extraction step whose pattern
matches nothing leaves the corresponding default untouched. -/
theorem C8_extraction_defaults (github_url msg raw : Str) (m : RegexMatches) :
    extract_github_content github_url ExtractOutcome.noApiKey
      = ⟨str "No content available for " ++ github_url, false, 0, 0, [],
         str "No README available", []⟩ ∧
    extract_github_content github_url ExtractOutcome.noResults
      = ⟨str "No content available for " ++ github_url, false, 0, 0, [],
         str "No README available", []⟩ ∧
    extract_github_content github_url (ExtractOutcome.requestFailed msg)
      = ⟨str "Error extracting content: " ++ msg, false, 0, 0, [],
         str "No README available", []⟩ ∧
    (extract_github_content github_url (ExtractOutcome.content raw m)).extracted_content
      = true ∧
    (m.stars = none →
      (extract_github_content github_url (ExtractOutcome.content raw m)).stars = 0) ∧
    (m.forks = none →
      (extract_github_content github_url (ExtractOutcome.content raw m)).forks = 0) ∧
    (m.languages_section = none →
      (extract_github_content github_url (ExtractOutcome.content raw m)).languages = []) ∧
    (m.readme = none →
      (extract_github_content github_url (ExtractOutcome.content raw m)).readme
        = str "No README detected") ∧
    (m.files_section = none →
      (extract_github_content github_url (ExtractOutcome.content raw m)).files = []) := by
  refine ⟨rfl, rfl, rfl, rfl, ?_, ?_, ?_, ?_, ?_⟩ <;>
    intro h <;> simp [extract_github_content, h]

/-- Witness for C8 at a concrete repository URL and fully unmatched
extraction patterns. -/
theorem C8_witness :
    (extract_github_content (str "https://github.com/x/y")
        (ExtractOutcome.content (str "some page text") ⟨none, none, none, none, none⟩)).stars
      = 0 ∧
    (extract_github_content (str "https://github.com/x/y")
        (ExtractOutcome.content (str "some page text") ⟨none, none, none, none, none⟩)).readme
      = str "No README detected" := by
  have h := C8_extraction_defaults (str "https://github.com/x/y") (str "boom")
    (str "some page text") ⟨none, none, none, none, none⟩
  exact ⟨h.2.2.2.2.1 rfl, h.2.2.2.2.2.2.2.1 rfl⟩

/-- Claim C9: `create_fallback_implementation_doc` is a pure function
of its three inputs (equal inputs give identical output), and when the
plan's implementation steps are absent or empty the output embeds the
fixed three-step skeleton (Project Setup, Implementation, Deployment). -/
theorem C9_fallback_doc (ps ps2 : SummaryResult) (sp sp2 : SelectedProject)
    (ep ep2 : EnhancementPlan)
    (hps : ps = ps2) (hsp : sp = sp2) (hep : ep = ep2) :
    create_fallback_implementation_doc ps sp ep
      = create_fallback_implementation_doc ps2 sp2 ep2 ∧
    (ep.implementation_steps = none ∨ ep.implementation_steps = some [] →
      ∃ p s, create_fallback_implementation_doc ps sp ep
        = p ++ skeletonStepsText ++ s) := by
  subst hps hsp hep
  refine ⟨rfl, fun h => ⟨fallbackDocHead ps sp ep, fallbackDocTail, ?_⟩⟩
  rcases h with h | h <;>
    simp [create_fallback_implementation_doc, implementationStepsText, h]

/-- Witness for C9 at concrete inputs with an empty step list. -/
theorem C9_witness :
    ∃ p s, create_fallback_implementation_doc (SummaryResult.error (str "busy"))
        ⟨str "T", str "U", str "D", none⟩ ⟨none, some []⟩
      = p ++ skeletonStepsText ++ s :=
  (C9_fallback_doc (SummaryResult.error (str "busy")) (SummaryResult.error (str "busy"))
    ⟨str "T", str "U", str "D", none⟩ ⟨str "T", str "U", str "D", none⟩
    ⟨none, some []⟩ ⟨none, some []⟩ rfl rfl rfl).2 (Or.inr rfl)

/-- Claim C6: on the initial message and on each clarification round
(which the caller, src/app_new.py, only dispatches while the session
is awaiting clarification), the awaiting flag is false after the
handler exactly when the returned rating is at least 8; in particular
rating 7 leaves the session awaiting and rating 8 does not. -/
theorem C6_clarity_threshold (s : Session) (prompt : Str)
    (cOut : ClarityOutcome) (sOut : SummaryOutcome)
    (hpre : s.awaiting_clarification = true) :
    ((handle_initial_message s prompt cOut sOut).awaiting_clarification = false
      ↔ 8 ≤ (evaluate_idea_clarity prompt cOut).1) ∧
    ((handle_clarification s prompt cOut sOut).awaiting_clarification = false
      ↔ 8 ≤ (evaluate_idea_clarity (s.original_idea ++ str " " ++ prompt) cOut).1) ∧
    (handle_initial_message s prompt
        (ClarityOutcome.parsed (some 7) none none none) sOut).awaiting_clarification
      = true ∧
    (handle_initial_message s prompt
        (ClarityOutcome.parsed (some 8) none none none) sOut).awaiting_clarification
      = false := by
  refine ⟨?_, ?_, rfl, rfl⟩
  · unfold handle_initial_message
    dsimp only
    split
    next h => simp only [Bool.true_eq_false, false_iff]; omega
    next h => simp only [true_iff]; omega
  · unfold handle_clarification
    dsimp only
    split
    next h => simp only [true_iff]; exact h
    next h => simp only [hpre, Bool.true_eq_false, false_iff]; exact h

/-- Witness for C6 at a concrete awaiting session and a rating-8
clarification outcome. -/
theorem C6_witness :
    (handle_clarification ⟨str "an app", 5, str "r", none, true, false⟩ (str "more detail")
        (ClarityOutcome.parsed (some 8) none none none)
        SummaryOutcome.unavailable).awaiting_clarification = false
      ↔ 8 ≤ (evaluate_idea_clarity (str "an app" ++ str " " ++ str "more detail")
          (ClarityOutcome.parsed (some 8) none none none)).1 :=
  (C6_clarity_threshold ⟨str "an app", 5, str "r", none, true, false⟩ (str "more detail")
    (ClarityOutcome.parsed (some 8) none none none) SummaryOutcome.unavailable rfl).2.1

/-- An original idea of at least 500 characters disables every
enrichment addition, so the assembled query is the idea itself. -/
theorem assemble_search_query_of_long_idea (idea : Str) (summary : Option SummaryResult)
    (hlong : 500 ≤ idea.length) :
    assemble_search_query idea summary = idea := by
  match summary with
  | none => rfl
  | some s =>
    simp only [assemble_search_query]
    have h1 : ¬ (s.purposeField ≠ [] ∧ s.purposeField ≠ idea ∧
        idea.length + s.purposeField.length < 400) := by
      rintro ⟨-, -, h⟩; omega
    rw [if_neg h1]
    have h2 : ¬ (s.platformField ≠ [] ∧ idea.length + s.platformField.length < 450) := by
      rintro ⟨-, h⟩; omega
    rw [if_neg h2]
    have h3 : ¬ (s.techStackField ≠ [] ∧ idea.length + s.techStackField.length < 500) := by
      rintro ⟨-, h⟩; omega
    rw [if_neg h3]

/-- Claim C5, as stated, is false: the query assembled in
`handle_github_search` is not capped at 500 characters; an original
idea of 501 characters already passes through unchanged, because only
the enrichment additions are budget-gated. -/
theorem C5_counterexample :
    500 < (assemble_search_query (List.replicate 501 'a') none).length := by
  have h : assemble_search_query (List.replicate 501 'a') none = List.replicate 501 'a' := rfl
  rw [h, List.length_replicate]
  omega

/-- Claim C5 (amended): the enrichment additions of
`handle_github_search` are gated by the 400, 450 and 500 checkpoints,
so an original idea of at least 500 characters is passed through
unchanged, and the assembled query can exceed 500; before submission
`search_github_projects` truncates the query to its first 500
characters and appends the fixed 18-character GitHub suffix, so the
string submitted to the provider is at most 518 characters. -/
theorem C5_query_truncation (query idea : Str) (summary : Option SummaryResult)
    (hlong : 500 ≤ idea.length) :
    (truncateQuery query).length ≤ 500 ∧
    submittedQuery query = truncateQuery query ++ str " GitHub repository" ∧
    (submittedQuery query).length ≤ 518 ∧
    assemble_search_query idea summary = idea := by
  have htrunc : (truncateQuery query).length ≤ 500 := by
    unfold truncateQuery
    split
    next h => simp only [List.length_take]; omega
    next h => omega
  refine ⟨htrunc, rfl, ?_, assemble_search_query_of_long_idea idea summary hlong⟩
  have hlen : (submittedQuery query).length
      = (truncateQuery query).length + (str " GitHub repository").length := by
    simp [submittedQuery]
  have h18 : (str " GitHub repository").length = 18 := rfl
  omega

/-- Witness for C5 at a concrete short query and a concrete
500-character idea. -/
theorem C5_witness :
    (truncateQuery (str "chat app")).length ≤ 500 ∧
    submittedQuery (str "chat app") = truncateQuery (str "chat app") ++ str " GitHub repository" ∧
    (submittedQuery (str "chat app")).length ≤ 518 ∧
    assemble_search_query (List.replicate 500 'a') none = List.replicate 500 'a' :=
  C5_query_truncation (str "chat app") (List.replicate 500 'a') none
    (by rw [List.length_replicate])

/-- Claim C7, as stated, is false: the source filters with a substring
test, so a result whose URL contains github.com inside another host
name survives the filter even though its host is not github.com. -/
theorem C7_counterexample :
    search_github_projects (str "chat app")
        (SearchOutcome.response (some
          [⟨some (str "My Repo"), some (str "https://mygithub.community/chat"),
            some (str "a community chat project")⟩]))
      = SearchResult.projects
          [⟨str "My Repo", str "https://mygithub.community/chat",
            str "a community chat project"⟩] ∧
    urlHostIsGithub (str "https://mygithub.community/chat") = false := by
  constructor
  · decide
  · decide

/-- Claim C7 (amended): `search_github_projects` returns either an
explicit error marker or a non-empty list of at most five candidates
whose URLs each contain github.com as a substring (not necessarily as
their host), with every description longer than 200 units truncated to
its first 200 units plus an ellipsis; an empty post-filter result set
yields the no-relevant-results error marker, never an empty list. -/
theorem C7_search_results (query : Str) (outcome : SearchOutcome) :
    (∃ m, search_github_projects query outcome = SearchResult.error m) ∨
    (∃ l, search_github_projects query outcome = SearchResult.projects l ∧
      l ≠ [] ∧ l.length ≤ 5 ∧
      ∀ p, p ∈ l → containsSub (str "github.com") p.url = true ∧
        (p.description.length ≤ 200 ∨
          ∃ t, t.length = 200 ∧ p.description = t ++ str "...")) := by
  match outcome with
  | .unavailable => exact Or.inl ⟨_, rfl⟩
  | .failure msg => exact Or.inl ⟨_, rfl⟩
  | .response results0 =>
    simp only [search_github_projects]
    split
    next hgp => exact Or.inl ⟨_, rfl⟩
    next hgp =>
      refine Or.inr ⟨_, rfl, ?_, ?_, ?_⟩
      · simp only [ne_eq, List.take_eq_nil_iff]
        push_neg
        exact ⟨by omega, hgp⟩
      · simp only [List.length_take]
        omega
      · intro p hp
        have hp' := List.mem_of_mem_take hp
        match results0 with
        | none => simp at hp'
        | some results =>
          rw [List.mem_filterMap] at hp'
          obtain ⟨r, -, hr⟩ := hp'
          by_cases hc : containsSub (str "github.com") (r.url.getD []) = true
          · rw [if_pos hc] at hr
            obtain rfl := Option.some.inj hr
            refine ⟨hc, ?_⟩
            unfold truncDescription
            split
            next hlong =>
              right
              refine ⟨(r.content.getD []).take 200, ?_, rfl⟩
              simp only [List.length_take]
              omega
            next hshort =>
              left
              dsimp only
              omega
          · rw [if_neg ?_] at hr
            · exact absurd hr (by simp)
            · simpa using hc

/-- Witness for C7 at a concrete unavailable-service outcome. -/
theorem C7_witness :
    (∃ m, search_github_projects (str "chat app") SearchOutcome.unavailable
        = SearchResult.error m) ∨
    (∃ l, search_github_projects (str "chat app") SearchOutcome.unavailable
        = SearchResult.projects l ∧
      l ≠ [] ∧ l.length ≤ 5 ∧
      ∀ p, p ∈ l → containsSub (str "github.com") p.url = true ∧
        (p.description.length ≤ 200 ∨
          ∃ t, t.length = 200 ∧ p.description = t ++ str "...")) :=
  C7_search_results (str "chat app") SearchOutcome.unavailable

/-- The Python `max` scan agrees with the reference first-maximum. -/
theorem pyMaxAux_eq_hMax (ys : List Evaluation) :
    ∀ x y : Evaluation, pyMaxAux x (y :: ys) = hMax x (y :: ys) := by
  induction ys with
  | nil =>
    intro x y
    simp only [pyMaxAux, hMax]
  | cons z zs ih =>
    intro x y
    rw [show pyMaxAux x (y :: z :: zs)
        = if x.suitability_score < y.suitability_score
          then pyMaxAux y (z :: zs) else pyMaxAux x (z :: zs) from rfl]
    rw [ih y z, ih x z]
    rw [show hMax x (y :: z :: zs)
        = if x.suitability_score < (hMax y (z :: zs)).suitability_score
          then hMax y (z :: zs) else x from rfl]
    rw [show hMax y (z :: zs)
        = if y.suitability_score < (hMax z zs).suitability_score
          then hMax z zs else y from rfl]
    rw [show hMax x (z :: zs)
        = if x.suitability_score < (hMax z zs).suitability_score
          then hMax z zs else x from rfl]
    split_ifs <;> first | rfl | (exfalso; omega)

/-- `hMax x xs` is the element of `x :: xs` with the maximal score at
the least index: every element scores no higher, and every element
strictly before it scores strictly lower. -/
theorem hMax_spec (xs : List Evaluation) :
    ∀ x : Evaluation,
    ∃ j, ∃ hj : j < (x :: xs).length,
      hMax x xs = (x :: xs).get ⟨j, hj⟩ ∧
      (∀ k, (hk : k < (x :: xs).length) →
        ((x :: xs).get ⟨k, hk⟩).suitability_score ≤ (hMax x xs).suitability_score) ∧
      (∀ k, (hk : k < (x :: xs).length) → k < j →
        ((x :: xs).get ⟨k, hk⟩).suitability_score < (hMax x xs).suitability_score) := by
  induction xs with
  | nil =>
    intro x
    refine ⟨0, by simp, rfl, ?_, ?_⟩
    · intro k hk
      have hk0 : k = 0 := by simp only [List.length_cons, List.length_nil] at hk; omega
      subst hk0
      exact le_refl _
    · intro k hk hkj
      omega
  | cons y ys ih =>
    intro x
    obtain ⟨j', hj', heq, hmax, hstrict⟩ := ih y
    by_cases hx : x.suitability_score < (hMax y ys).suitability_score
    · have hres : hMax x (y :: ys) = hMax y ys := by
        rw [show hMax x (y :: ys)
            = if x.suitability_score < (hMax y ys).suitability_score
              then hMax y ys else x from rfl]
        rw [if_pos hx]
      refine ⟨j' + 1, by simp only [List.length_cons] at hj' ⊢; omega, ?_, ?_, ?_⟩
      · rw [hres]; exact heq
      · intro k hk
        rw [hres]
        match k with
        | 0 => exact le_of_lt (lt_of_lt_of_le hx (le_refl _))
        | k + 1 =>
          exact hmax k (by simp only [List.length_cons] at hk ⊢; omega)
      · intro k hk hkj
        rw [hres]
        match k with
        | 0 => exact hx
        | k + 1 =>
          exact hstrict k (by simp only [List.length_cons] at hk ⊢; omega) (by omega)
    · have hres : hMax x (y :: ys) = x := by
        rw [show hMax x (y :: ys)
            = if x.suitability_score < (hMax y ys).suitability_score
              then hMax y ys else x from rfl]
        rw [if_neg hx]
      refine ⟨0, by simp, ?_, ?_, ?_⟩
      · rw [hres]
        rfl
      · intro k hk
        rw [hres]
        match k with
        | 0 => exact le_refl _
        | k + 1 =>
          have h1 := hmax k (by simp only [List.length_cons] at hk ⊢; omega)
          have h2 : (hMax y ys).suitability_score ≤ x.suitability_score := by omega
          exact le_trans h1 h2
      · intro k hk hkj
        omega

/-- The head of the stable descending sort of a non-empty list is its
first maximal element. -/
theorem sortByScoreDesc_cons_eq (xs : List Evaluation) :
    ∀ x : Evaluation, ∃ t, sortByScoreDesc (x :: xs) = hMax x xs :: t := by
  induction xs with
  | nil =>
    intro x
    exact ⟨[], rfl⟩
  | cons y ys ih =>
    intro x
    obtain ⟨t, ht⟩ := ih y
    rw [show sortByScoreDesc (x :: y :: ys)
        = insertDesc x (sortByScoreDesc (y :: ys)) from rfl]
    rw [ht]
    rw [show insertDesc x (hMax y ys :: t)
        = if x.suitability_score < (hMax y ys).suitability_score
          then hMax y ys :: insertDesc x t else x :: hMax y ys :: t from rfl]
    rw [show hMax x (y :: ys)
        = if x.suitability_score < (hMax y ys).suitability_score
          then hMax y ys else x from rfl]
    by_cases hx : x.suitability_score < (hMax y ys).suitability_score
    · rw [if_pos hx, if_pos hx]
      exact ⟨insertDesc x t, rfl⟩
    · rw [if_neg hx, if_neg hx]
      exact ⟨hMax y ys :: t, rfl⟩

/-- Inserting adds one to the length. -/
theorem length_insertDesc (x : Evaluation) (l : List Evaluation) :
    (insertDesc x l).length = l.length + 1 := by
  induction l with
  | nil => rfl
  | cons y ys ih =>
    rw [show insertDesc x (y :: ys)
        = if x.suitability_score < y.suitability_score
          then y :: insertDesc x ys else x :: y :: ys from rfl]
    split
    · simp only [List.length_cons, ih]
    · simp only [List.length_cons]

/-- Sorting preserves the length. -/
theorem length_sortByScoreDesc (l : List Evaluation) :
    (sortByScoreDesc l).length = l.length := by
  induction l with
  | nil => rfl
  | cons x xs ih =>
    rw [show sortByScoreDesc (x :: xs) = insertDesc x (sortByScoreDesc xs) from rfl]
    rw [length_insertDesc, ih, List.length_cons]

/-- Membership in an insertion. -/
theorem mem_insertDesc {a x : Evaluation} {l : List Evaluation} :
    a ∈ insertDesc x l ↔ a = x ∨ a ∈ l := by
  induction l with
  | nil => simp [insertDesc]
  | cons y ys ih =>
    rw [show insertDesc x (y :: ys)
        = if x.suitability_score < y.suitability_score
          then y :: insertDesc x ys else x :: y :: ys from rfl]
    split
    · simp only [List.mem_cons, ih]
      tauto
    · simp only [List.mem_cons]

/-- Inserting into a descending list keeps it descending. -/
theorem pairwise_insertDesc {x : Evaluation} {l : List Evaluation}
    (h : l.Pairwise (fun a b => b.suitability_score ≤ a.suitability_score)) :
    (insertDesc x l).Pairwise (fun a b => b.suitability_score ≤ a.suitability_score) := by
  induction l with
  | nil => simp [insertDesc]
  | cons y ys ih =>
    rcases List.pairwise_cons.mp h with ⟨hy, hys⟩
    rw [show insertDesc x (y :: ys)
        = if x.suitability_score < y.suitability_score
          then y :: insertDesc x ys else x :: y :: ys from rfl]
    split
    next hlt =>
      refine List.pairwise_cons.mpr ⟨?_, ih hys⟩
      intro b hb
      rcases mem_insertDesc.mp hb with rfl | hb
      · omega
      · exact hy b hb
    next hge =>
      refine List.pairwise_cons.mpr ⟨?_, h⟩
      intro b hb
      rcases List.mem_cons.mp hb with rfl | hb
      · omega
      · have := hy b hb
        omega

/-- The output of the stable descending sort is descending. -/
theorem pairwise_sortByScoreDesc (l : List Evaluation) :
    (sortByScoreDesc l).Pairwise (fun a b => b.suitability_score ≤ a.suitability_score) := by
  induction l with
  | nil => simp [sortByScoreDesc]
  | cons x xs ih =>
    rw [show sortByScoreDesc (x :: xs) = insertDesc x (sortByScoreDesc xs) from rfl]
    exact pairwise_insertDesc ih

/-- Counting through an insertion. -/
theorem countP_insertDesc (p : Evaluation → Bool) (x : Evaluation) (l : List Evaluation) :
    (insertDesc x l).countP p = l.countP p + (if p x then 1 else 0) := by
  induction l with
  | nil => simp [insertDesc, List.countP_cons]
  | cons y ys ih =>
    rw [show insertDesc x (y :: ys)
        = if x.suitability_score < y.suitability_score
          then y :: insertDesc x ys else x :: y :: ys from rfl]
    split
    · simp only [List.countP_cons, ih]
      omega
    · simp only [List.countP_cons]

/-- Sorting does not change any count. -/
theorem countP_sortByScoreDesc (p : Evaluation → Bool) (l : List Evaluation) :
    (sortByScoreDesc l).countP p = l.countP p := by
  induction l with
  | nil => rfl
  | cons x xs ih =>
    rw [show sortByScoreDesc (x :: xs) = insertDesc x (sortByScoreDesc xs) from rfl]
    rw [countP_insertDesc, ih, List.countP_cons]

/-- Filtering by an exact score commutes with the stable insertion:
the inserted element lands in front of the equal-score block, because
every element it is placed behind scores strictly higher. -/
theorem filter_score_insertDesc (s : Int) (x : Evaluation) (l : List Evaluation) :
    (insertDesc x l).filter (fun e => e.suitability_score == s)
      = if x.suitability_score == s
        then x :: l.filter (fun e => e.suitability_score == s)
        else l.filter (fun e => e.suitability_score == s) := by
  induction l with
  | nil =>
    rw [show insertDesc x [] = [x] from rfl, List.filter_cons]
  | cons y ys ih =>
    rw [show insertDesc x (y :: ys)
        = if x.suitability_score < y.suitability_score
          then y :: insertDesc x ys else x :: y :: ys from rfl]
    split
    next hlt =>
      rw [List.filter_cons, ih, List.filter_cons]
      by_cases hx : x.suitability_score = s
      · have hy : ¬ y.suitability_score = s := by omega
        simp [hx, hy]
      · by_cases hy : y.suitability_score = s
        · simp [hx, hy]
        · simp [hx, hy]
    next hge =>
      rw [List.filter_cons, List.filter_cons]

/-- Stability of the sort: the elements of any fixed score keep their
original relative order. -/
theorem filter_score_sortByScoreDesc (s : Int) (l : List Evaluation) :
    (sortByScoreDesc l).filter (fun e => e.suitability_score == s)
      = l.filter (fun e => e.suitability_score == s) := by
  induction l with
  | nil => rfl
  | cons x xs ih =>
    rw [show sortByScoreDesc (x :: xs) = insertDesc x (sortByScoreDesc xs) from rfl]
    rw [filter_score_insertDesc, ih, List.filter_cons]

/-- Marking never changes the score. -/
theorem markEval_score (best : SelectedProject) (e : Evaluation) :
    (markEval best e).suitability_score = e.suitability_score := by
  unfold markEval
  split <;> rfl

/-- After marking, the flag records exactly whether the project URL
equals the selected URL. -/
theorem markEval_isBest (best : SelectedProject) (e : Evaluation) :
    (markEval best e).is_best_match = (e.project.url == best.url) := by
  unfold markEval
  split
  next h => simp [h]
  next h => simp [h]

/-- Claim C1, as stated, is false: the marking loop flags every
evaluation whose project URL equals the selected URL, so two
evaluations sharing one URL are both flagged and the list does not
contain exactly one best match. -/
theorem C1_counterexample :
    (evaluationsAfterMarking
        [⟨⟨str "A", str "https://github.com/x/y", str "d1"⟩, [], [], [], 5, false, none⟩,
         ⟨⟨str "B", str "https://github.com/x/y", str "d2"⟩, [], [], [], 5, false, none⟩]
        (select_best_project
          [⟨⟨str "A", str "https://github.com/x/y", str "d1"⟩, [], [], [], 5, false, none⟩,
           ⟨⟨str "B", str "https://github.com/x/y", str "d2"⟩, [], [], [], 5, false, none⟩]
          SelectionOutcome.unavailable)).countP (fun e => e.is_best_match) = 2 := by
  decide

/-- Claim C1 (amended): after the evaluation stage the list is sorted
by descending suitability score with ties keeping their original
relative order, and the evaluations flagged as best match are exactly
those whose project URL equals the selected URL; the flagged count is
one precisely when exactly one evaluation carries the selected URL
(zero or several matching URLs give zero or several flags). -/
theorem C1_marking_and_sort (evaluations : List Evaluation) (best : SelectedProject)
    (hne : evaluations ≠ []) :
    (evaluationsAfterMarking evaluations best).Pairwise
        (fun a b => b.suitability_score ≤ a.suitability_score) ∧
    (∀ s : Int, (evaluationsAfterMarking evaluations best).filter
          (fun e => e.suitability_score == s)
        = (evaluations.filter (fun e => e.suitability_score == s)).map (markEval best)) ∧
    (evaluationsAfterMarking evaluations best).countP (fun e => e.is_best_match)
      = evaluations.countP (fun e => e.project.url == best.url) ∧
    (evaluations.countP (fun e => e.project.url == best.url) = 1 →
      (evaluationsAfterMarking evaluations best).countP (fun e => e.is_best_match) = 1) := by
  have hcount : (evaluationsAfterMarking evaluations best).countP (fun e => e.is_best_match)
      = evaluations.countP (fun e => e.project.url == best.url) := by
    rw [evaluationsAfterMarking, List.countP_map]
    have hcomp : ((fun e => e.is_best_match) ∘ markEval best)
        = fun e => e.project.url == best.url := by
      funext e
      simp [Function.comp, markEval_isBest]
    rw [hcomp, countP_sortByScoreDesc]
  refine ⟨?_, ?_, hcount, fun h1 => by rw [hcount]; exact h1⟩
  · rw [evaluationsAfterMarking, List.pairwise_map]
    refine (pairwise_sortByScoreDesc evaluations).imp ?_
    intro a b hab
    rw [markEval_score, markEval_score]
    exact hab
  · intro s
    rw [evaluationsAfterMarking, List.filter_map]
    have hcomp : ((fun e => e.suitability_score == s) ∘ markEval best)
        = fun e => e.suitability_score == s := by
      funext e
      simp [Function.comp, markEval_score]
    rw [hcomp, filter_score_sortByScoreDesc]

/-- Witness for C1 at a concrete single-evaluation list whose URL
matches the selected project. -/
theorem C1_witness :
    (evaluationsAfterMarking
        [⟨⟨str "A", str "https://github.com/a/b", str "d"⟩, [], [], [], 5, false, none⟩]
        ⟨str "A", str "https://github.com/a/b", str "d", none⟩).countP
      (fun e => e.is_best_match) = 1 :=
  (C1_marking_and_sort
    [⟨⟨str "A", str "https://github.com/a/b", str "d"⟩, [], [], [], 5, false, none⟩]
    ⟨str "A", str "https://github.com/a/b", str "d", none⟩
    (by decide)).2.2.2 (by decide)

/-- Claim C2: whenever the selection service is unavailable, raises,
or returns an unparsable or out-of-range index, `select_best_project`
on at least two evaluations returns the project of the evaluation with
the maximum suitability score, and with several maxima the earliest by
original index: some index j carries the result, no score exceeds the
score at j, and every index before j scores strictly lower. -/
theorem C2_selection_fallback (evaluations : List Evaluation) (outcome : SelectionOutcome)
    (h2 : 2 ≤ evaluations.length) (hf : selectionFails evaluations.length outcome) :
    ∃ j, ∃ hj : j < evaluations.length,
      (select_best_project evaluations outcome).projectOf
        = (evaluations.get ⟨j, hj⟩).project ∧
      (∀ k, (hk : k < evaluations.length) →
        (evaluations.get ⟨k, hk⟩).suitability_score
          ≤ (evaluations.get ⟨j, hj⟩).suitability_score) ∧
      (∀ k, (hk : k < evaluations.length) → k < j →
        (evaluations.get ⟨k, hk⟩).suitability_score
          < (evaluations.get ⟨j, hj⟩).suitability_score) := by
  rcases evaluations with _ | ⟨e1, _ | ⟨e2, rest⟩⟩
  · simp only [List.length_nil] at h2
    omega
  · simp only [List.length_cons, List.length_nil] at h2
    omega
  · have key : (select_best_project (e1 :: e2 :: rest) outcome).projectOf
        = (hMax e1 (e2 :: rest)).project := by
      match outcome with
      | .unavailable =>
        rw [← pyMaxAux_eq_hMax rest e1 e2]
        rfl
      | .exception =>
        obtain ⟨t, ht⟩ := sortByScoreDesc_cons_eq (e2 :: rest) e1
        simp only [select_best_project]
        rw [ht]
        rfl
      | .response none r =>
        rw [← pyMaxAux_eq_hMax rest e1 e2]
        rfl
      | .response (some i) r =>
        have hcond : i - 1 < 0 ∨ (((e1 :: e2 :: rest).length : Int)) ≤ i - 1 := hf
        simp only [select_best_project]
        rw [dif_pos hcond]
        rw [← pyMaxAux_eq_hMax rest e1 e2]
        rfl
    obtain ⟨j, hj, heq, hmax, hstrict⟩ := hMax_spec (e2 :: rest) e1
    rw [heq] at key hmax hstrict
    exact ⟨j, hj, key, hmax, hstrict⟩

/-- Witness for C2 at two concrete evaluations with distinct scores
and an unavailable selection service. -/
theorem C2_witness :
    ∃ j, ∃ hj : j <
        ([⟨⟨str "A", str "https://github.com/a/a", str "da"⟩, [], [], [], 3, false, none⟩,
          ⟨⟨str "B", str "https://github.com/b/b", str "db"⟩, [], [], [], 7, false, none⟩]
            : List Evaluation).length,
      (select_best_project
          [⟨⟨str "A", str "https://github.com/a/a", str "da"⟩, [], [], [], 3, false, none⟩,
           ⟨⟨str "B", str "https://github.com/b/b", str "db"⟩, [], [], [], 7, false, none⟩]
          SelectionOutcome.unavailable).projectOf
        = (([⟨⟨str "A", str "https://github.com/a/a", str "da"⟩, [], [], [], 3, false, none⟩,
             ⟨⟨str "B", str "https://github.com/b/b", str "db"⟩, [], [], [], 7, false, none⟩]
              : List Evaluation).get ⟨j, hj⟩).project ∧
      (∀ k, (hk : k <
          ([⟨⟨str "A", str "https://github.com/a/a", str "da"⟩, [], [], [], 3, false, none⟩,
            ⟨⟨str "B", str "https://github.com/b/b", str "db"⟩, [], [], [], 7, false, none⟩]
              : List Evaluation).length) →
        (([⟨⟨str "A", str "https://github.com/a/a", str "da"⟩, [], [], [], 3, false, none⟩,
           ⟨⟨str "B", str "https://github.com/b/b", str "db"⟩, [], [], [], 7, false, none⟩]
            : List Evaluation).get ⟨k, hk⟩).suitability_score
          ≤ (([⟨⟨str "A", str "https://github.com/a/a", str "da"⟩, [], [], [], 3, false, none⟩,
               ⟨⟨str "B", str "https://github.com/b/b", str "db"⟩, [], [], [], 7, false, none⟩]
                : List Evaluation).get ⟨j, hj⟩).suitability_score) ∧
      (∀ k, (hk : k <
          ([⟨⟨str "A", str "https://github.com/a/a", str "da"⟩, [], [], [], 3, false, none⟩,
            ⟨⟨str "B", str "https://github.com/b/b", str "db"⟩, [], [], [], 7, false, none⟩]
              : List Evaluation).length) → k < j →
        (([⟨⟨str "A", str "https://github.com/a/a", str "da"⟩, [], [], [], 3, false, none⟩,
           ⟨⟨str "B", str "https://github.com/b/b", str "db"⟩, [], [], [], 7, false, none⟩]
            : List Evaluation).get ⟨k, hk⟩).suitability_score
          < (([⟨⟨str "A", str "https://github.com/a/a", str "da"⟩, [], [], [], 3, false, none⟩,
               ⟨⟨str "B", str "https://github.com/b/b", str "db"⟩, [], [], [], 7, false, none⟩]
                : List Evaluation).get ⟨j, hj⟩).suitability_score) :=
  C2_selection_fallback
    [⟨⟨str "A", str "https://github.com/a/a", str "da"⟩, [], [], [], 3, false, none⟩,
     ⟨⟨str "B", str "https://github.com/b/b", str "db"⟩, [], [], [], 7, false, none⟩]
    SelectionOutcome.unavailable (by decide) trivial

/-- Claim C10: after the evaluation stage on a non-empty list,
`selected_project` is always some evaluated candidate of the marked
list, and when no evaluation is flagged as best match the head of the
score-sorted list is selected instead of leaving the field unset. -/
theorem C10_selected_project (evaluations : List Evaluation) (best : SelectedProject)
    (hne : evaluations ≠ []) :
    (∃ e, e ∈ evaluationsAfterMarking evaluations best ∧
      selectedFromMarked (evaluationsAfterMarking evaluations best) = some e.project) ∧
    ((∀ e ∈ evaluationsAfterMarking evaluations best, e.is_best_match = false) →
      ∃ e t, evaluationsAfterMarking evaluations best = e :: t ∧
        selectedFromMarked (evaluationsAfterMarking evaluations best) = some e.project) := by
  have hmne : evaluationsAfterMarking evaluations best ≠ [] := by
    intro h
    apply hne
    have hlen := congrArg List.length h
    rw [evaluationsAfterMarking, List.length_map, length_sortByScoreDesc] at hlen
    have h0 : evaluations.length = 0 := by simpa using hlen
    exact List.length_eq_zero.mp h0
  constructor
  · cases hfind : (evaluationsAfterMarking evaluations best).find? (fun e => e.is_best_match) with
    | some e =>
      refine ⟨e, List.mem_of_find?_eq_some hfind, ?_⟩
      simp only [selectedFromMarked]
      rw [hfind]
    | none =>
      obtain ⟨m0, t, hmt⟩ := List.exists_cons_of_ne_nil hmne
      refine ⟨m0, ?_, ?_⟩
      · rw [hmt]
        exact List.mem_cons_self _ _
      · simp only [selectedFromMarked]
        rw [hfind, hmt]
  · intro hall
    have hfind : (evaluationsAfterMarking evaluations best).find? (fun e => e.is_best_match)
        = none := by
      rw [List.find?_eq_none]
      intro e he
      simp [hall e he]
    obtain ⟨m0, t, hmt⟩ := List.exists_cons_of_ne_nil hmne
    refine ⟨m0, t, hmt, ?_⟩
    simp only [selectedFromMarked]
    rw [hfind, hmt]

/-- Witness for C10 at a concrete evaluation whose URL does not match
the selected project, so nothing is flagged and the head is chosen. -/
theorem C10_witness :
    ∃ e t, evaluationsAfterMarking
        [⟨⟨str "A", str "https://github.com/a/b", str "d"⟩, [], [], [], 4, false, none⟩]
        ⟨str "Could not select project", [],
          str "An error occurred during project selection.", none⟩ = e :: t ∧
      selectedFromMarked (evaluationsAfterMarking
        [⟨⟨str "A", str "https://github.com/a/b", str "d"⟩, [], [], [], 4, false, none⟩]
        ⟨str "Could not select project", [],
          str "An error occurred during project selection.", none⟩) = some e.project :=
  (C10_selected_project
    [⟨⟨str "A", str "https://github.com/a/b", str "d"⟩, [], [], [], 4, false, none⟩]
    ⟨str "Could not select project", [],
      str "An error occurred during project selection.", none⟩
    (by decide)).2 (by decide)

end CodePlanning
